import Mathlib

/-!
Shallow embedding of the Photo-Cutter core (src/photo-cutter.py) and
verification of its specification claims.

Conventions of the embedding:
* Python integers are `ℤ`, Python lists are `List`, Python strings are `String`.
* Python float division in the geometry code is modelled as exact rational
  division (`ℚ`); Python `int(x)` (truncation toward zero) is `py_int`;
  Python `//` (floor division) is `Int.fdiv`.
* The process-wide mutable `TARGET_RATIOS` dictionary is passed explicitly as a
  `TargetRatios` value; `TARGET_RATIOS` below is its initial value.
* Fallible collaborator I/O (image decode, JPEG save, file delete) is modelled
  by a `FileOutcome` record of success flags, and a raised Python exception by
  `Except.error`.
-/

namespace PhotoCutter

/-- Python `int(x)`: truncation of a real (here rational) number toward zero. -/
def py_int (q : ℚ) : ℤ :=
if q < 0 then ⌈q⌉ else ⌊q⌋

/-- Embeds `get_crop_coords(start, length, crop_length, anchor)`
(src/photo-cutter.py lines 45-53).  Python `//` is floor division, `Int.fdiv`. -/
def get_crop_coords (start length crop_length : ℤ) (anchor : String) : ℤ × ℤ :=
if anchor = "start" then (start, start + crop_length)
else if anchor = "end" then (start + (length - crop_length), start + length)
else
  let offset := Int.fdiv (length - crop_length) 2
  (start + offset, start + offset + crop_length)

/-- The crop box `(x0, y0, x1, y1)` returned by `get_target_crop_box`. -/
structure CropBox where
  x0 : ℤ
  y0 : ℤ
  x1 : ℤ
  y1 : ℤ
deriving DecidableEq

/-- Embeds `get_target_crop_box(width, height, target_ratio, anchor)`
(src/photo-cutter.py lines 55-68).  The Python float quotients
`width / height` and `target_w / target_h` are modelled as exact rationals, and
`int(...)` as `py_int`. -/
def get_target_crop_box (width height : ℤ) (ratio_pair : ℤ × ℤ) (anchor : String) : CropBox :=
let target_w := ratio_pair.1
let target_h := ratio_pair.2
let current_r : ℚ := (width : ℚ) / (height : ℚ)
let target_r : ℚ := (target_w : ℚ) / (target_h : ℚ)
if current_r > target_r then
  let new_width : ℤ := py_int ((height : ℚ) * target_r)
  let c := get_crop_coords 0 width new_width anchor
  ⟨c.1, 0, c.2, height⟩
else
  let new_height : ℤ := py_int ((width : ℚ) / target_r)
  let c := get_crop_coords 0 height new_height anchor
  ⟨0, c.1, width, c.2⟩

/-- Embeds `get_orientation(width, height)` (src/photo-cutter.py lines 37-43). -/
def get_orientation (width height : ℤ) : String :=
if width > height then "landscape"
else if height > width then "portrait"
else "square"

/-- The ratio table: the three entries of the Python `TARGET_RATIOS` dict. -/
structure TargetRatios where
  landscape : ℤ × ℤ
  portrait : ℤ × ℤ
  square : ℤ × ℤ
deriving DecidableEq

/-- Initial value of `TARGET_RATIOS` (src/photo-cutter.py lines 15-19). -/
def TARGET_RATIOS : TargetRatios :=
{ landscape := (15, 10), portrait := (10, 15), square := (15, 15) }

/-- Lookup `TARGET_RATIOS[key]`.  The source only ever indexes the dict with
`"landscape"`, `"portrait"` or `"square"`, so the catch-all arm is `square`. -/
def ratio_lookup (t : TargetRatios) (key : String) : ℤ × ℤ :=
if key = "landscape" then t.landscape
else if key = "portrait" then t.portrait
else t.square

/-- Embeds `determine_target_ratio(width, height, mode)`
(src/photo-cutter.py lines 70-75), with the global table passed explicitly. -/
def determine_target_ratio (t : TargetRatios) (width height : ℤ) (mode : String) : (ℤ × ℤ) × String :=
if mode = "landscape" ∨ mode = "portrait" then (ratio_lookup t mode, mode)
else
  let orientation := get_orientation width height
  (ratio_lookup t orientation, orientation)

/-- The body of `update_target_ratios` after successful parsing and validation
(src/photo-cutter.py lines 122-125): overwrite the whole table from
`big = max w h`, `small = min w h`. -/
def apply_ratios_core (w h : ℤ) : TargetRatios :=
let big := max w h
let small := min w h
{ landscape := (big, small), portrait := (small, big), square := (small, big) }

/-- Decimal digit accumulator used by `py_parse_int`: returns the value of a
digit string, or `none` if a non-digit character occurs. -/
def digits_val : List Char → ℕ → Option ℕ
| [], acc => some acc
| c :: rest, acc => if c.isDigit then digits_val rest (acc * 10 + (c.toNat - 48)) else none

/-- Models the Python builtin `int(string)`: an optional sign followed by
decimal digits; anything else raises `ValueError`, modelled as `none`.
(Surrounding whitespace and digit-group underscores, which Python also accepts,
are omitted; they do not affect any claim.) -/
def py_parse_int (s : String) : Option ℤ :=
match s.data with
| [] => none
| '-' :: rest => if rest.isEmpty then none else (digits_val rest 0).map (fun n => -(n : ℤ))
| '+' :: rest => if rest.isEmpty then none else (digits_val rest 0).map (fun n => (n : ℤ))
| l => (digits_val l 0).map (fun n => (n : ℤ))

/-- Embeds `update_target_ratios` (src/photo-cutter.py lines 115-130), with the
text-entry contents passed as the two strings.  Python `int(...)` string
parsing is modelled by `py_parse_int`; a `ValueError` (parse failure or a
non-positive value) is caught and leaves the table unchanged. -/
def update_target_ratios (t : TargetRatios) (width_s height_s : String) : TargetRatios :=
match py_parse_int width_s, py_parse_int height_s with
| some w, some h => if w ≤ 0 ∨ h ≤ 0 then t else apply_ratios_core w h
| some _, none => t
| none, _ => t

/-! ### File-path rules (models of the `os.path` functions the source uses,
with POSIX separators) -/

/-- Python `str.rfind(ch)` on a character list: the largest index holding
`ch`, or `-1` when absent. -/
def py_rfind (c : Char) : List Char → ℤ
| [] => -1
| a :: rest =>
  let r := py_rfind c rest
  if r ≥ 0 then r + 1
  else if a = c then 0 else -1

/-- Models `posixpath.splitext` on a character list: split at the last dot of
the final component, except that a final component consisting of leading dots
only (such as `.bashrc`) has no extension. -/
def splitext_list (p : List Char) : List Char × List Char :=
let sepIndex := py_rfind '/' p
let dotIndex := py_rfind '.' p
if dotIndex > sepIndex then
  if (List.range p.length).any
      (fun k => decide (sepIndex + 1 ≤ (k : ℤ)) && decide ((k : ℤ) < dotIndex)
        && (p.getD k ' ' != '.')) then
    (p.take dotIndex.toNat, p.drop dotIndex.toNat)
  else (p, [])
else (p, [])

/-- Models `os.path.splitext` (POSIX). -/
def splitext (p : String) : String × String :=
let r := splitext_list p.data
(r.1.asString, r.2.asString)

/-- Models `os.path.basename` (POSIX): everything after the last `/`. -/
def basename (p : String) : String :=
(p.data.drop (py_rfind '/' p.data + 1).toNat).asString

/-- Drops trailing `/` characters, as `str.rstrip('/')` does. -/
def rstrip_slashes (l : List Char) : List Char :=
(l.reverse.dropWhile (fun c => c == '/')).reverse

/-- Models `os.path.dirname` (POSIX): the prefix up to the last `/`, with
trailing separators stripped unless the result is all separators. -/
def dirname (p : String) : String :=
let head := p.data.take (py_rfind '/' p.data + 1).toNat
if head.any (fun c => c != '/') then (rstrip_slashes head).asString
else head.asString

/-- Models `os.path.join` (POSIX) for the two-argument calls in the source. -/
def path_join (a b : String) : String :=
if b.data.head? = some '/' then b
else if a.data = [] ∨ a.data.getLast? = some '/' then a ++ b
else a ++ "/" ++ b

/-- ASCII lowercasing of a string, as Python `str.lower()` does on the
extensions that occur here. -/
def lower_s (s : String) : String :=
(s.data.map Char.toLower).asString

/-! ### Commit pipeline (save, delete, cursor advance) -/

/-- The output path computed by `save_image` (src/photo-cutter.py lines 92-93):
same directory, same basename, extension forced to `.jpg`. -/
def output_path_of (original_path : String) : String :=
let base_name := (splitext (basename original_path)).1
path_join (dirname original_path) (base_name ++ ".jpg")

/-- The delete test of `save_image` (src/photo-cutter.py lines 96-97): the
original is removed exactly when its lowercased extension is not `.jpg`. -/
def should_delete (original_path : String) : Bool :=
lower_s (splitext original_path).2 != ".jpg"

/-- A Python exception escaping the commit pipeline: an `IOError` raised by
`image.save` or by `os.remove`. -/
inductive PyErr where
| save : PyErr
| delete : PyErr
deriving DecidableEq

/-- Success flags of the fallible collaborator calls made while committing one
file: image decode (`Image.open`/`convert`/`crop`), JPEG save, file delete. -/
structure FileOutcome where
  decode_ok : Bool
  save_ok : Bool
  delete_ok : Bool
deriving DecidableEq

/-- The observable effect of a successful `save_image` call: where the JPEG was
written, with what format and quality, and whether the original was deleted. -/
structure SaveResult where
  output_path : String
  format : String
  quality : ℤ
  deleted : Bool
deriving DecidableEq

/-- Embeds `convert_image_only` (src/photo-cutter.py lines 77-88) at the level
of success/failure: every exception inside the `try` block (decode, convert,
crop) is caught and turned into `None`.  Pixel data is outside the model. -/
def convert_image_only (o : FileOutcome) : Option Unit :=
if o.decode_ok then some () else none

/-- Embeds `save_image` (src/photo-cutter.py lines 90-101): write the JPEG at
quality 95 (may raise `IOError`), then delete the original when its lowercased
extension is not `.jpg` (may raise `IOError`); neither exception is caught
here. -/
def save_image (o : FileOutcome) (original_path : String) : Except PyErr SaveResult :=
let output_path := output_path_of original_path
if o.save_ok = false then Except.error PyErr.save
else if should_delete original_path then
  if o.delete_ok = false then Except.error PyErr.delete
  else Except.ok ⟨output_path, "JPEG", 95, true⟩
else Except.ok ⟨output_path, "JPEG", 95, false⟩

/-- Embeds `process_and_save` (src/photo-cutter.py lines 103-113): a decode
failure was already caught and logged, giving `none`; a `save_image` exception
propagates. -/
def process_and_save (o : FileOutcome) (file_path : String) : Except PyErr (Option String) :=
match convert_image_only o with
| some _ => (save_image o file_path).map (fun r => some r.output_path)
| none => Except.ok none

/-- The module-level session state (src/photo-cutter.py lines 22-28), without
the GUI-only preview temp path. -/
structure AppState where
  selected_files : List String
  current_index : ℕ
  crop_anchor : String
  crop_mode : String
deriving DecidableEq

/-- Embeds `begin_process` (src/photo-cutter.py lines 200-213): no-op past the
end of the queue; otherwise process the current file and advance the cursor.
The `current_index += 1` line runs only if `process_and_save` returns, so an
uncaught exception leaves the cursor unchanged (`Except.error`). -/
def begin_process (o : FileOutcome) (s : AppState) : Except PyErr AppState :=
if s.current_index ≥ s.selected_files.length then Except.ok s
else
  let path := s.selected_files.getD s.current_index ""
  match process_and_save o path with
  | Except.error e => Except.error e
  | Except.ok _ => Except.ok { s with current_index := s.current_index + 1 }

/-! ### Helper lemmas about the geometry embedding -/

/-- The truncation `py_int` agrees with the floor on nonnegative rationals. -/
theorem py_int_of_nonneg (q : ℚ) (h : 0 ≤ q) : py_int q = ⌊q⌋ := by
  rw [py_int, if_neg (not_lt.mpr h)]

/-- The floor of a quotient of integer casts is integer (Euclidean) division. -/
theorem floor_int_div (a b : ℤ) (hb : 0 < b) : ⌊(a : ℚ) / (b : ℚ)⌋ = a / b := by
  lift b to ℕ using hb.le
  exact_mod_cast Rat.floor_intCast_div_natCast a b

/-- Integer-arithmetic characterization of `get_target_crop_box` on positive
inputs: the float branch test becomes a cross-multiplication test and the two
truncated lengths become integer divisions. -/
theorem get_target_crop_box_int (w h tw th : ℤ) (anchor : String)
    (hw : 0 < w) (hh : 0 < h) (htw : 0 < tw) (hth : 0 < th) :
    get_target_crop_box w h (tw, th) anchor =
      if tw * h < w * th then
        ⟨(get_crop_coords 0 w ((h * tw) / th) anchor).1, 0,
         (get_crop_coords 0 w ((h * tw) / th) anchor).2, h⟩
      else
        ⟨0, (get_crop_coords 0 h ((w * th) / tw) anchor).1, w,
         (get_crop_coords 0 h ((w * th) / tw) anchor).2⟩ := by
  have hhq : (0 : ℚ) < (h : ℚ) := by exact_mod_cast hh
  have hthq : (0 : ℚ) < (th : ℚ) := by exact_mod_cast hth
  have htwq : (0 : ℚ) < (tw : ℚ) := by exact_mod_cast htw
  have hcond : ((w : ℚ) / (h : ℚ) > (tw : ℚ) / (th : ℚ)) ↔ tw * h < w * th := by
    rw [gt_iff_lt, div_lt_div_iff₀ hthq hhq]
    constructor <;> intro H <;> exact_mod_cast H
  have hnw : py_int ((h : ℚ) * ((tw : ℚ) / (th : ℚ))) = (h * tw) / th := by
    have e1 : (h : ℚ) * ((tw : ℚ) / (th : ℚ)) = ((h * tw : ℤ) : ℚ) / ((th : ℤ) : ℚ) := by
      push_cast
      ring
    have e2 : (0 : ℚ) ≤ ((h * tw : ℤ) : ℚ) / ((th : ℤ) : ℚ) :=
      div_nonneg (by exact_mod_cast (mul_nonneg hh.le htw.le)) (by exact_mod_cast hth.le)
    rw [e1, py_int_of_nonneg _ e2, floor_int_div _ _ hth]
  have hnh : py_int ((w : ℚ) / ((tw : ℚ) / (th : ℚ))) = (w * th) / tw := by
    have e1 : (w : ℚ) / ((tw : ℚ) / (th : ℚ)) = ((w * th : ℤ) : ℚ) / ((tw : ℤ) : ℚ) := by
      push_cast
      rw [div_div_eq_mul_div]
    have e2 : (0 : ℚ) ≤ ((w * th : ℤ) : ℚ) / ((tw : ℤ) : ℚ) :=
      div_nonneg (by exact_mod_cast (mul_nonneg hw.le hth.le)) (by exact_mod_cast htw.le)
    rw [e1, py_int_of_nonneg _ e2, floor_int_div _ _ htw]
  by_cases hc : tw * h < w * th
  · rw [if_pos hc]
    simp only [get_target_crop_box]
    rw [if_pos (hcond.mpr hc), hnw]
  · rw [if_neg hc]
    simp only [get_target_crop_box]
    rw [if_neg (fun hlt => hc (hcond.mp hlt)), hnh]

/-- On any anchor string, `get_crop_coords 0 L c anchor` yields an interval of
length exactly `c` inside `[0, L]`, provided `0 ≤ c ≤ L`. -/
theorem get_crop_coords_spec (L c : ℤ) (anchor : String) (h0 : 0 ≤ c) (h1 : c ≤ L) :
    0 ≤ (get_crop_coords 0 L c anchor).1 ∧
    (get_crop_coords 0 L c anchor).2 = (get_crop_coords 0 L c anchor).1 + c ∧
    (get_crop_coords 0 L c anchor).2 ≤ L := by
  have h2 : Int.fdiv (L - c) 2 = (L - c) / 2 := Int.fdiv_eq_ediv _ (by norm_num)
  unfold get_crop_coords
  split_ifs
  case _ => refine ⟨?_, ?_, ?_⟩ <;> dsimp only <;> omega
  case _ => refine ⟨?_, ?_, ?_⟩ <;> dsimp only <;> omega
  case _ => refine ⟨?_, ?_, ?_⟩ <;> dsimp only <;> rw [h2] <;> omega

/-- Cropping an axis to its full length is the identity interval, under every
anchor string. -/
theorem get_crop_coords_full (L : ℤ) (anchor : String) :
    get_crop_coords 0 L L anchor = (0, L) := by
  have h2 : Int.fdiv (L - L) 2 = 0 := by
    rw [Int.fdiv_eq_ediv _ (by norm_num)]
    omega
  unfold get_crop_coords
  split_ifs
  case _ => simp
  case _ => simp
  case _ =>
    rw [h2]
    simp

/-! ### Spec predicates for the crop-box claims -/

/-- The CropBox bounds invariant stated by the spec: both coordinate pairs are
ordered and inside the image. -/
def box_within_bounds (b : CropBox) (w h : ℤ) : Prop :=
0 ≤ b.x0 ∧ b.x0 < b.x1 ∧ b.x1 ≤ w ∧ 0 ≤ b.y0 ∧ b.y0 < b.y1 ∧ b.y1 ≤ h

instance (b : CropBox) (w h : ℤ) : Decidable (box_within_bounds b w h) := by
  unfold box_within_bounds
  infer_instance

/-- The spec's integer-truncation tolerance: the uncropped axis keeps its full
length and the cropped axis length is within one pixel of the exact real-valued
target length. -/
def ratio_tolerance (b : CropBox) (w h tw th : ℤ) : Prop :=
(b.y1 - b.y0 = h ∧ |((b.x1 - b.x0 : ℤ) : ℚ) - (h : ℚ) * ((tw : ℚ) / (th : ℚ))| ≤ 1) ∨
(b.x1 - b.x0 = w ∧ |((b.y1 - b.y0 : ℤ) : ℚ) - (w : ℚ) / ((tw : ℚ) / (th : ℚ))| ≤ 1)

/-! ### Claim theorems: crop geometry -/

/-- C1 (amended): for positive dimensions and ratio components, and any anchor
in start/center/end, the crop box is within bounds with strictly ordered
coordinates and the cropped axis is within one pixel of the exact target
length, provided the truncated crop length is at least one pixel
(`rw ≤ width * rh` and `rh ≤ height * rw`).  Without that proviso the claim
fails (see the counterexample). -/
theorem C1_crop_box_valid (w h tw th : ℤ) (anchor : String)
    (hw : 0 < w) (hh : 0 < h) (htw : 0 < tw) (hth : 0 < th)
    (hanchor : anchor = "start" ∨ anchor = "center" ∨ anchor = "end")
    (hwmin : tw ≤ w * th) (hhmin : th ≤ h * tw) :
    box_within_bounds (get_target_crop_box w h (tw, th) anchor) w h ∧
    ratio_tolerance (get_target_crop_box w h (tw, th) anchor) w h tw th := by
  rw [get_target_crop_box_int w h tw th anchor hw hh htw hth]
  by_cases hc : tw * h < w * th
  · rw [if_pos hc]
    have h1nw : 1 ≤ (h * tw) / th := by
      rw [Int.le_ediv_iff_mul_le hth, one_mul]
      exact hhmin
    have hnwlt : (h * tw) / th < w := by
      rw [Int.ediv_lt_iff_lt_mul hth]
      calc h * tw = tw * h := mul_comm h tw
        _ < w * th := hc
    obtain ⟨ha, hb, hcle⟩ :=
      get_crop_coords_spec w ((h * tw) / th) anchor (by linarith) (by linarith)
    have hq : ((h * tw : ℤ) : ℚ) / ((th : ℤ) : ℚ) = (h : ℚ) * ((tw : ℚ) / (th : ℚ)) := by
      push_cast
      ring
    have hfl1 : ((((h * tw) / th : ℤ)) : ℚ) ≤ (h : ℚ) * ((tw : ℚ) / (th : ℚ)) := by
      rw [← hq, ← floor_int_div (h * tw) th hth]
      exact Int.floor_le _
    have hfl2 : (h : ℚ) * ((tw : ℚ) / (th : ℚ)) < (((h * tw) / th : ℤ) : ℚ) + 1 := by
      rw [← hq, ← floor_int_div (h * tw) th hth]
      exact Int.lt_floor_add_one _
    constructor
    · unfold box_within_bounds
      dsimp only
      refine ⟨ha, by linarith, hcle, le_refl 0, hh, le_refl h⟩
    · unfold ratio_tolerance
      dsimp only
      left
      refine ⟨by ring, ?_⟩
      have hdiff : (get_crop_coords 0 w ((h * tw) / th) anchor).2 -
          (get_crop_coords 0 w ((h * tw) / th) anchor).1 = (h * tw) / th := by
        linarith
      rw [hdiff, abs_le]
      constructor <;> push_cast <;> linarith
  · rw [if_neg hc]
    have h1nh : 1 ≤ (w * th) / tw := by
      rw [Int.le_ediv_iff_mul_le htw, one_mul]
      exact hwmin
    have hnhle : (w * th) / tw ≤ h := by
      have hstep : (w * th) / tw ≤ (h * tw) / tw :=
        Int.ediv_le_ediv htw (by linarith [mul_comm tw h])
      rwa [Int.mul_ediv_cancel _ htw.ne'] at hstep
    obtain ⟨ha, hb, hcle⟩ :=
      get_crop_coords_spec h ((w * th) / tw) anchor (by linarith) hnhle
    have hq : ((w * th : ℤ) : ℚ) / ((tw : ℤ) : ℚ) = (w : ℚ) / ((tw : ℚ) / (th : ℚ)) := by
      push_cast
      rw [div_div_eq_mul_div]
    have hfl1 : ((((w * th) / tw : ℤ)) : ℚ) ≤ (w : ℚ) / ((tw : ℚ) / (th : ℚ)) := by
      rw [← hq, ← floor_int_div (w * th) tw htw]
      exact Int.floor_le _
    have hfl2 : (w : ℚ) / ((tw : ℚ) / (th : ℚ)) < (((w * th) / tw : ℤ) : ℚ) + 1 := by
      rw [← hq, ← floor_int_div (w * th) tw htw]
      exact Int.lt_floor_add_one _
    constructor
    · unfold box_within_bounds
      dsimp only
      refine ⟨le_refl 0, hw, le_refl w, ha, by linarith, hcle⟩
    · unfold ratio_tolerance
      dsimp only
      right
      refine ⟨by ring, ?_⟩
      have hdiff : (get_crop_coords 0 h ((w * th) / tw) anchor).2 -
          (get_crop_coords 0 h ((w * th) / tw) anchor).1 = (w * th) / tw := by
        linarith
      rw [hdiff, abs_le]
      constructor <;> push_cast <;> linarith

/-- C1 witness: the amended theorem applied at width 4000, height 3000, ratio
(15, 10), anchor start. -/
theorem C1_witness :
    box_within_bounds (get_target_crop_box 4000 3000 (15, 10) "start") 4000 3000 ∧
    ratio_tolerance (get_target_crop_box 4000 3000 (15, 10) "start") 4000 3000 15 10 :=
  C1_crop_box_valid 4000 3000 15 10 "start" (by norm_num) (by norm_num) (by norm_num)
    (by norm_num) (Or.inl rfl) (by norm_num) (by norm_num)

/-- C1 counterexample: at width 1, height 100, ratio (100, 1), anchor center,
the truncated crop length is 0 and the returned box is (0, 50, 1, 50), which
violates `y0 < y1`; so the claim as stated (over all positive inputs) is
false. -/
theorem C1_counterexample :
    ¬ (box_within_bounds (get_target_crop_box 1 100 (100, 1) "center") 1 100 ∧
       ratio_tolerance (get_target_crop_box 1 100 (100, 1) "center") 1 100 100 1) := by
  intro hC
  have hb : get_target_crop_box 1 100 (100, 1) "center" = ⟨0, 50, 1, 50⟩ := by
    rw [get_target_crop_box_int 1 100 100 1 "center" (by norm_num) (by norm_num)
      (by norm_num) (by norm_num)]
    decide
  rw [hb] at hC
  exact absurd hC.1 (by decide)

/-- C3: at 4000x3000 with target ratio (15, 10) and anchor center, the current
ratio is below the target ratio (so the height-crop branch runs) and the
returned box is exactly (0, 167, 4000, 2833). -/
theorem C3_concrete_box :
    ((4000 : ℚ) / (3000 : ℚ) < (15 : ℚ) / (10 : ℚ)) ∧
    get_target_crop_box 4000 3000 (15, 10) "center" = ⟨0, 167, 4000, 2833⟩ := by
  constructor
  · norm_num
  · rw [get_target_crop_box_int 4000 3000 15 10 "center" (by norm_num) (by norm_num)
      (by norm_num) (by norm_num)]
    decide

/-- C4: the anchor coordinate rule over axis length L and crop length c with
0 < c ≤ L: start pins the interval at 0, end pins it at L, center offsets by
floor((L-c)/2), and the leftover's extra pixel (when L-c is odd) goes entirely
to the trailing side. -/
theorem C4_anchor_coords (L c : ℤ) (h0 : 0 < c) (h1 : c ≤ L) :
    get_crop_coords 0 L c "start" = (0, c) ∧
    get_crop_coords 0 L c "end" = (L - c, L) ∧
    get_crop_coords 0 L c "center" = (Int.fdiv (L - c) 2, Int.fdiv (L - c) 2 + c) ∧
    L - (Int.fdiv (L - c) 2 + c) = Int.fdiv (L - c) 2 + (if (L - c) % 2 = 1 then 1 else 0) := by
  have h2 : Int.fdiv (L - c) 2 = (L - c) / 2 := Int.fdiv_eq_ediv _ (by norm_num)
  refine ⟨?_, ?_, ?_, ?_⟩
  · unfold get_crop_coords
    rw [if_pos rfl]
    norm_num
  · unfold get_crop_coords
    rw [if_neg (by decide), if_pos rfl]
    norm_num
  · unfold get_crop_coords
    rw [if_neg (by decide), if_neg (by decide)]
    norm_num
  · rw [h2]
    split_ifs <;> omega

/-- C4 witness: the anchor coordinate rule at L = 10, c = 3 (odd leftover 7). -/
theorem C4_witness :
    get_crop_coords 0 10 3 "start" = (0, 3) ∧
    get_crop_coords 0 10 3 "end" = (10 - 3, 10) ∧
    get_crop_coords 0 10 3 "center" = (Int.fdiv (10 - 3) 2, Int.fdiv (10 - 3) 2 + 3) ∧
    (10 : ℤ) - (Int.fdiv (10 - 3) 2 + 3) =
      Int.fdiv (10 - 3) 2 + (if ((10 : ℤ) - 3) % 2 = 1 then 1 else 0) :=
  C4_anchor_coords 10 3 (by norm_num) (by norm_num)

/-- C6: when the image ratio exactly equals the target ratio, the width-crop
branch test is false (the height-crop branch runs), the truncated new height
equals the full height, and the box is the whole image, under any anchor. -/
theorem C6_equal_ratio_is_noop (w h tw th : ℤ) (anchor : String)
    (hw : 0 < w) (hh : 0 < h) (htw : 0 < tw) (hth : 0 < th)
    (heq : (w : ℚ) / (h : ℚ) = (tw : ℚ) / (th : ℚ)) :
    ¬ ((w : ℚ) / (h : ℚ) > (tw : ℚ) / (th : ℚ)) ∧
    py_int ((w : ℚ) / ((tw : ℚ) / (th : ℚ))) = h ∧
    get_target_crop_box w h (tw, th) anchor = ⟨0, 0, w, h⟩ := by
  have hhq : (0 : ℚ) < (h : ℚ) := by exact_mod_cast hh
  have hthq : (0 : ℚ) < (th : ℚ) := by exact_mod_cast hth
  have hcross : w * th = tw * h := by
    have := (div_eq_div_iff hhq.ne' hthq.ne').mp heq
    exact_mod_cast this
  have hnewh : (w * th) / tw = h := by
    rw [hcross, Int.mul_ediv_cancel_left _ htw.ne']
  refine ⟨by rw [heq]; exact lt_irrefl _, ?_, ?_⟩
  · have e1 : (w : ℚ) / ((tw : ℚ) / (th : ℚ)) = ((w * th : ℤ) : ℚ) / ((tw : ℤ) : ℚ) := by
      push_cast
      rw [div_div_eq_mul_div]
    have e2 : (0 : ℚ) ≤ ((w * th : ℤ) : ℚ) / ((tw : ℤ) : ℚ) :=
      div_nonneg (by exact_mod_cast (mul_nonneg hw.le hth.le)) (by exact_mod_cast htw.le)
    rw [e1, py_int_of_nonneg _ e2, floor_int_div _ _ htw, hnewh]
  · rw [get_target_crop_box_int w h tw th anchor hw hh htw hth, if_neg (by omega),
      hnewh, get_crop_coords_full]

/-- C6 witness: a 30x20 image with target ratio (15, 10) under anchor center is
returned uncropped. -/
theorem C6_witness :
    ¬ ((30 : ℚ) / (20 : ℚ) > (15 : ℚ) / (10 : ℚ)) ∧
    py_int ((30 : ℚ) / ((15 : ℚ) / (10 : ℚ))) = 20 ∧
    get_target_crop_box 30 20 (15, 10) "center" = ⟨0, 0, 30, 20⟩ :=
  C6_equal_ratio_is_noop 30 20 15 10 "center" (by norm_num) (by norm_num) (by norm_num)
    (by norm_num) (by norm_num)

/-- C9: any anchor string other than "start" and "end" (not just "center")
falls through to the centering arm; no error branch exists. -/
theorem C9_unknown_anchor_is_center (start length crop_length : ℤ) (anchor : String)
    (h1 : anchor ≠ "start") (h2 : anchor ≠ "end") :
    get_crop_coords start length crop_length anchor =
      (start + Int.fdiv (length - crop_length) 2,
       start + Int.fdiv (length - crop_length) 2 + crop_length) ∧
    get_crop_coords start length crop_length anchor =
      get_crop_coords start length crop_length "center" := by
  unfold get_crop_coords
  rw [if_neg h1, if_neg h2, if_neg (by decide), if_neg (by decide)]
  exact ⟨rfl, rfl⟩

/-- C9 witness: the arbitrary invalid anchor "bogus" behaves as center. -/
theorem C9_witness :
    get_crop_coords 0 10 4 "bogus" =
      (0 + Int.fdiv (10 - 4) 2, 0 + Int.fdiv (10 - 4) 2 + 4) ∧
    get_crop_coords 0 10 4 "bogus" = get_crop_coords 0 10 4 "center" :=
  C9_unknown_anchor_is_center 0 10 4 "bogus" (by decide) (by decide)

/-! ### Claim theorems: ratio table -/

/-- C5: applying a positive ratio pair overwrites the whole table with the
normalized entries landscape = (max, min), portrait = (min, max),
square = (min, max); the update is order-independent and afterwards the square
entry equals the portrait entry. -/
theorem C5_apply_normalizes (w h : ℤ) (hw : 0 < w) (hh : 0 < h) :
    apply_ratios_core w h =
      { landscape := (max w h, min w h), portrait := (min w h, max w h),
        square := (min w h, max w h) } ∧
    apply_ratios_core w h = apply_ratios_core h w ∧
    (apply_ratios_core w h).square = (apply_ratios_core w h).portrait := by
  refine ⟨rfl, ?_, rfl⟩
  unfold apply_ratios_core
  rw [max_comm, min_comm]

/-- C5 witness: applying (15, 10) and applying (10, 15) produce the identical
table. -/
theorem C5_witness : apply_ratios_core 15 10 = apply_ratios_core 10 15 :=
  (C5_apply_normalizes 15 10 (by norm_num) (by norm_num)).2.1

/-- C7: any input pair that does not parse as two positive integers (non-integer
text, zero, or negative values) leaves the ratio table completely unchanged. -/
theorem C7_invalid_input_rejected (t : TargetRatios) (ws hs : String)
    (hinvalid : ¬ ∃ w h : ℤ,
      py_parse_int ws = some w ∧ py_parse_int hs = some h ∧ 0 < w ∧ 0 < h) :
    update_target_ratios t ws hs = t := by
  unfold update_target_ratios
  cases hw : py_parse_int ws with
  | none => rfl
  | some w =>
    cases hh : py_parse_int hs with
    | none => rfl
    | some h =>
      show (if w ≤ 0 ∨ h ≤ 0 then t else apply_ratios_core w h) = t
      rw [if_pos]
      push_neg at hinvalid
      have hcase := hinvalid w h hw hh
      rcases le_or_lt w 0 with hw0 | hw0
      · exact Or.inl hw0
      · exact Or.inr (hcase hw0)

/-- C7 witness: the non-integer text "abc" (with a valid height) is rejected
and the default table is untouched. -/
theorem C7_witness : update_target_ratios TARGET_RATIOS "abc" "10" = TARGET_RATIOS :=
  C7_invalid_input_rejected TARGET_RATIOS "abc" "10" (by
    intro hEx
    obtain ⟨w, h, hw, -, -, -⟩ := hEx
    rw [show py_parse_int "abc" = none from by decide] at hw
    exact Option.noConfusion hw)

/-- C10: the initial ratio table is landscape = (15, 10), portrait = (10, 15),
square = (15, 15); its square entry differs from its portrait entry; a square
image resolved in auto mode before any apply gets the 1:1 ratio (15, 15); and
after any successful apply the square entry equals the portrait entry. -/
theorem C10_initial_table :
    TARGET_RATIOS = { landscape := (15, 10), portrait := (10, 15), square := (15, 15) } ∧
    TARGET_RATIOS.square ≠ TARGET_RATIOS.portrait ∧
    determine_target_ratio TARGET_RATIOS 50 50 "auto" = ((15, 15), "square") ∧
    ∀ w h : ℤ, 0 < w → 0 < h →
      (apply_ratios_core w h).square = (apply_ratios_core w h).portrait :=
  ⟨rfl, by decide, by decide, fun _ _ _ _ => rfl⟩

/-- C10 witness: the square-equals-portrait conjunct applied at (20, 30). -/
theorem C10_witness :
    (apply_ratios_core 20 30).square = (apply_ratios_core 20 30).portrait :=
  C10_initial_table.2.2.2 20 30 (by norm_num) (by norm_num)

/-! ### Claim theorems: batch commit and save -/

/-- C2 (amended): in state Previewing(i), Commit advances the cursor to i+1 on
success and also on a decode failure (which is caught and logged inside
`convert_image_only`); but an IOError raised by the JPEG save or by the delete
of the original propagates out of Commit uncaught, and the cursor then stays
at i.  The claim's "advances on any failure" is false for save/delete
failures (see the counterexample). -/
theorem C2_commit_cursor (o : FileOutcome) (s : AppState)
    (hidx : s.current_index < s.selected_files.length) :
    (o.decode_ok = false →
      begin_process o s = Except.ok { s with current_index := s.current_index + 1 }) ∧
    (o.decode_ok = true → o.save_ok = true →
      (should_delete (s.selected_files.getD s.current_index "") = false ∨
        o.delete_ok = true) →
      begin_process o s = Except.ok { s with current_index := s.current_index + 1 }) ∧
    (o.decode_ok = true → o.save_ok = false →
      begin_process o s = Except.error PyErr.save) ∧
    (o.decode_ok = true → o.save_ok = true →
      should_delete (s.selected_files.getD s.current_index "") = true →
      o.delete_ok = false →
      begin_process o s = Except.error PyErr.delete) := by
  have hguard : ¬ (s.current_index ≥ s.selected_files.length) := not_le.mpr hidx
  obtain ⟨path, hpath⟩ : ∃ p, s.selected_files.getD s.current_index "" = p := ⟨_, rfl⟩
  have hbp : begin_process o s =
      match process_and_save o path with
      | Except.error e => Except.error e
      | Except.ok _ => Except.ok { s with current_index := s.current_index + 1 } := by
    unfold begin_process
    rw [if_neg hguard, hpath]
  rw [hpath]
  refine ⟨?_, ?_, ?_, ?_⟩
  · intro hdec
    have hps : process_and_save o path = Except.ok none := by
      simp [process_and_save, convert_image_only, hdec]
    rw [hbp, hps]
  · intro hdec hsv hdel
    have hps : process_and_save o path = Except.ok (some (output_path_of path)) := by
      rcases hdel with hsd | hdl
      · simp [process_and_save, convert_image_only, save_image, Except.map, hdec, hsv, hsd]
      · cases hsd2 : should_delete path
        · simp [process_and_save, convert_image_only, save_image, Except.map, hdec, hsv,
            hsd2]
        · simp [process_and_save, convert_image_only, save_image, Except.map, hdec, hsv,
            hsd2, hdl]
    rw [hbp, hps]
  · intro hdec hsv
    have hps : process_and_save o path = Except.error PyErr.save := by
      simp [process_and_save, convert_image_only, save_image, Except.map, hdec, hsv]
    rw [hbp, hps]
  · intro hdec hsv hsd hdl
    have hps : process_and_save o path = Except.error PyErr.delete := by
      simp [process_and_save, convert_image_only, save_image, Except.map, hdec, hsv,
        hsd, hdl]
    rw [hbp, hps]

/-- C2 witness: a decode failure on the only queued file still advances the
cursor from 0 to 1. -/
theorem C2_witness :
    begin_process ⟨false, true, true⟩ ⟨["a.png"], 0, "center", "auto"⟩ =
      Except.ok ⟨["a.png"], 1, "center", "auto"⟩ :=
  (C2_commit_cursor ⟨false, true, true⟩ ⟨["a.png"], 0, "center", "auto"⟩ (by decide)).1 rfl

/-- C2 counterexample: with the save step failing (an IOError during
`image.save`), Commit of file 0 raises instead of returning, and the session
is not advanced to cursor 1 — refuting "cursor equals i+1 regardless of
failure, including IOError during save". -/
theorem C2_counterexample :
    begin_process ⟨true, false, true⟩ ⟨["a.png"], 0, "center", "auto"⟩ =
      Except.error PyErr.save ∧
    begin_process ⟨true, false, true⟩ ⟨["a.png"], 0, "center", "auto"⟩ ≠
      Except.ok ⟨["a.png"], 1, "center", "auto"⟩ := by
  have h : begin_process ⟨true, false, true⟩ ⟨["a.png"], 0, "center", "auto"⟩ =
      Except.error PyErr.save := rfl
  refine ⟨h, ?_⟩
  rw [h]
  intro hcon
  exact Except.noConfusion hcon

/-- C8 (amended): a committed file is saved at the input's directory and
basename with extension forced to `.jpg`, as JPEG at quality 95, and the
original is deleted exactly when its LOWERCASED extension is not `.jpg`.  The
claim's literal-extension test and its "no delete iff output path equals input
path" equivalence both fail on uppercase `.JPG` inputs (see the
counterexample). -/
theorem C8_save_contract (p : String) (o : FileOutcome)
    (hsv : o.save_ok = true) (hdl : o.delete_ok = true) :
    save_image o p = Except.ok ⟨output_path_of p, "JPEG", 95, should_delete p⟩ ∧
    output_path_of p = path_join (dirname p) ((splitext (basename p)).1 ++ ".jpg") ∧
    (should_delete p = true ↔ lower_s (splitext p).2 ≠ ".jpg") := by
  refine ⟨?_, rfl, ?_⟩
  · cases hsd : should_delete p <;> simp [save_image, hsv, hdl, hsd]
  · simp [should_delete, bne_iff_ne]

/-- C8 witness: the save contract at input `a/photo.png` with successful I/O. -/
theorem C8_witness :
    save_image ⟨true, true, true⟩ "a/photo.png" =
      Except.ok ⟨output_path_of "a/photo.png", "JPEG", 95, should_delete "a/photo.png"⟩ ∧
    output_path_of "a/photo.png" =
      path_join (dirname "a/photo.png") ((splitext (basename "a/photo.png")).1 ++ ".jpg") ∧
    (should_delete "a/photo.png" = true ↔ lower_s (splitext "a/photo.png").2 ≠ ".jpg") :=
  C8_save_contract "a/photo.png" ⟨true, true, true⟩ rfl rfl

/-- C8 counterexample: for input `a/photo.JPG` the lowercased extension is
`.jpg`, so no delete occurs, although the literal extension differs from
`.jpg` and the resolved output path `a/photo.jpg` differs from the input
path — refuting both the literal-extension delete condition and the
"no delete iff output equals input" equivalence. -/
theorem C8_counterexample :
    should_delete "a/photo.JPG" = false ∧
    (splitext "a/photo.JPG").2 ≠ ".jpg" ∧
    output_path_of "a/photo.JPG" ≠ "a/photo.JPG" ∧
    save_image ⟨true, true, true⟩ "a/photo.JPG" =
      Except.ok ⟨"a/photo.jpg", "JPEG", 95, false⟩ :=
  ⟨by decide, by decide, by decide, rfl⟩

end PhotoCutter
